import Mathlib

/-
Verification of the dnd-manager drag-and-drop engine.

This file shallowly embeds the two core components of the repository:

* `DragDropManager` (src/drag-drop-manager.ts): the pointer-interaction
  state machine.  The mutable fields of the class (the drag session record
  `state`, the pending animation-frame handle `rafId`, and
  `lastPointerPos`), together with the engine-owned DOM marker attributes
  `data-dragging` and `data-hovered`, form the `Manager` record below.
  Each private event handler of the class becomes a pure function from a
  `Manager` to a `Manager` paired with the list of lifecycle callbacks the
  handler invokes, in invocation order.  The host-supplied accessor
  callbacks (`getItemPosition`, `getItemData`, `canDrag`) are parameters,
  since the engine calls them for answers rather than for effects.

* `DragPreviewController` (src/drag-preview-controller.ts): the clone
  lifecycle (create from element, remove, destroy).  Visual styling of the
  clone has no behavioural content and is outside the model.

DOM elements are identified by natural numbers.  The fragment of the DOM
the engine inspects (parent links, data-kind, data-empty, the container)
is the `Dom` record; a height bound makes the ancestor walk structurally
recursive, which is faithful on the finite DOM trees the source runs on.

Coordinates are integers.  The source computes
`getDistance = Math.sqrt(dx^2 + dy^2)` and only ever compares it against a
non-negative threshold `t`; since `Real.sqrt d >= t` iff `d >= t * t`, the
embedding compares the squared distance against the squared threshold,
which is exact (no floating-point rounding can flip these comparisons for
integer inputs of screen-coordinate magnitude).

External best-effort effects with no observable consequence in the model
are omitted: `setPointerCapture` / `releasePointerCapture` (errors are
swallowed by the source), `window.scrollBy` (mutates only the window
scroll position), and listener attach/detach.  JavaScript truthiness on
the host-defined generic results of `getItemPosition` / `getItemData` is
modelled by `Option`: `none` stands for any falsy result.
-/

namespace DndM

/-- Pointer coordinates in pixels (source type `PointerPosition`). -/
structure PointerPosition where
  x : Int
  y : Int
deriving DecidableEq, Repr

/-- Squared Euclidean distance between two pointer positions.  The source
`getDistance` returns the square root of this quantity. -/
def getDistanceSq (p1 p2 : PointerPosition) : Int :=
  (p2.x - p1.x) * (p2.x - p1.x) + (p2.y - p1.y) * (p2.y - p1.y)

/-- Embedding of `getDistance p1 p2 >= t` for a natural threshold `t`. -/
def distanceGe (p1 p2 : PointerPosition) (t : Nat) : Bool :=
  (t * t : Int) ≤ getDistanceSq p1 p2

/-- Embedding of `getDistance p1 p2 < t` for a natural threshold `t`. -/
def distanceLt (p1 p2 : PointerPosition) (t : Nat) : Bool :=
  getDistanceSq p1 p2 < (t * t : Int)

/-- Engine configuration after the constructor has applied defaults
(source type `Required<DragDropConfig>`).  `draggableKind` and
`droppableKind` are kept as the raw caller-supplied lists (a lone string
becomes a singleton list); the constructor-normalized kind sets are
`draggableKinds` / `droppableKinds` below. -/
structure DragDropConfig where
  dragThreshold : Nat := 10
  clickThreshold : Nat := 10
  scrollThreshold : Int := 100
  scrollSpeed : Int := 10
  cancelOnEscape : Bool := true
  cancelOnPointerLeave : Bool := true
  draggableKind : List String
  droppableKind : List String
deriving DecidableEq, Repr

/-- Whitespace trimming from both ends of a string (the `value.trim()` of
the source), written over the character list so that it evaluates by
kernel reduction. -/
def trimString (s : String) : String :=
  ⟨((s.data.dropWhile Char.isWhitespace).reverse.dropWhile Char.isWhitespace).reverse⟩

/-- Source `normalizeKindList`: trim each value, drop empties, deduplicate
keeping first occurrences (the insertion order of `new Set`). -/
def normalizeKindList (kinds : List String) : List String :=
  ((kinds.map trimString).filter (fun value => value != "")).eraseDups

/-- The normalized draggable kind set computed in the constructor. -/
def draggableKinds (config : DragDropConfig) : List String :=
  normalizeKindList config.draggableKind

/-- The normalized droppable kind set computed in the constructor. -/
def droppableKinds (config : DragDropConfig) : List String :=
  normalizeKindList config.droppableKind

/-- The fragment of the DOM the engine reads: parent links, the
`data-kind` attribute, presence of `data-empty`, the container element,
and a bound on ancestor-chain length (the DOM is a finite tree). -/
structure Dom where
  container : Nat
  parentElement : Nat → Option Nat
  datasetKind : Nat → Option String
  datasetEmpty : Nat → Bool
  height : Nat

/-- Fuel-indexed ancestor walk of `findElementByKinds`: starting from an
element, walk parent links while the current element exists and is not the
container, returning the first element whose truthy `data-kind` value is a
member of the kind list, together with that value. -/
def findElementByKindsAux (dom : Dom) (kinds : List String) :
    Nat → Option Nat → Option (Nat × String)
  | _, none => none
  | 0, some _ => none
  | Nat.succ fuel, some current =>
    if current = dom.container then none
    else
      match dom.datasetKind current with
      | some elementKind =>
        if elementKind ≠ "" ∧ elementKind ∈ kinds then some (current, elementKind)
        else findElementByKindsAux dom kinds fuel (dom.parentElement current)
      | none => findElementByKindsAux dom kinds fuel (dom.parentElement current)

/-- Source `findElementByKinds`, entered with the full height bound. -/
def findElementByKinds (dom : Dom) (element : Option Nat) (kinds : List String) :
    Option (Nat × String) :=
  findElementByKindsAux dom kinds dom.height element

/-- The host-supplied accessor callbacks.  The lifecycle callbacks
(`onDragStart`, `onDragMove`, `onDrop`, `onDragEnd`, `onClick`) are not
stored: their invocations are the observable output of each handler and
are emitted as `CallbackCall` values. -/
structure DragDropCallbacks (TItem TPos : Type) where
  canDrag : Option (Nat → TPos → Bool)
  getItemData : Option (Nat → TPos → Option TItem)
  getItemPosition : Nat → String → Option TPos

/-- One invocation of a host lifecycle callback, with its arguments. -/
inductive CallbackCall (TItem TPos : Type) where
  | onDragStart (element : Nat) (position : TPos) (item : TItem)
  | onDragMove (pos : PointerPosition) (hoveredElement : Option Nat)
  | onDrop (sourcePosition : TPos) (targetPosition : TPos) (sourceItem : TItem)
  | onDragEnd
  | onClick (element : Nat) (position : TPos)
deriving DecidableEq, Repr

/-- Source type `DragState`: the drag session record. -/
structure DragState (TItem TPos : Type) where
  startPosition : Option PointerPosition
  sourceElement : Option Nat
  sourcePosition : Option TPos
  sourceItem : Option TItem
  activePointerId : Option Int
  isDragging : Bool
  lastHoveredElement : Option Nat
deriving DecidableEq, Repr

/-- The empty session every field is reset to on cleanup. -/
def emptyDragState {TItem TPos : Type} : DragState TItem TPos :=
  ⟨none, none, none, none, none, false, none⟩

/-- Mutable state of a `DragDropManager` instance together with the DOM
marker attributes the engine owns.  `rafId` is true exactly when the
source field `rafId` is non-null, i.e. an animation frame is pending.
`draggingAttr` and `hoveredAttr` list the elements currently carrying
`data-dragging` and `data-hovered`. -/
structure Manager (TItem TPos : Type) where
  state : DragState TItem TPos
  rafId : Bool
  lastPointerPos : Option PointerPosition
  draggingAttr : List Nat
  hoveredAttr : List Nat
deriving DecidableEq, Repr

/-- State of a freshly constructed manager: empty session, no pending
frame, no engine-owned attribute set anywhere. -/
def initialManager {TItem TPos : Type} : Manager TItem TPos :=
  ⟨emptyDragState, false, none, [], []⟩

/-- Effect of `element.setAttribute` on the set of elements carrying an
engine-owned marker attribute. -/
def setAttr (attrs : List Nat) (el : Nat) : List Nat :=
  if el ∈ attrs then attrs else el :: attrs

/-- Effect of `element.removeAttribute` on the set of elements carrying an
engine-owned marker attribute. -/
def removeAttr (attrs : List Nat) (el : Nat) : List Nat :=
  attrs.filter (fun e => e ≠ el)

/-- The state `cleanup` reaches after removing `data-dragging` from the
source element, removing `data-hovered` from the hovered element, and
cancelling the pending animation frame — and before it invokes
`onDragEnd`.  This is exactly the state that code running inside the
drag-end callback observes through the public accessors, since the
session reset happens only after the callback returns. -/
def cleanupMid {TItem TPos : Type} (m : Manager TItem TPos) : Manager TItem TPos :=
  { m with
    draggingAttr :=
      match m.state.sourceElement with
      | some el => removeAttr m.draggingAttr el
      | none => m.draggingAttr
    hoveredAttr :=
      match m.state.lastHoveredElement with
      | some el => removeAttr m.hoveredAttr el
      | none => m.hoveredAttr
    rafId := false }

/-- Source `cleanup`: attribute removal and frame cancellation, then the
drag-end callback if the session had reached dragging, then the session
reset.  Pointer-capture release is an external best-effort call with no
modelled effect. -/
def cleanup {TItem TPos : Type} (m : Manager TItem TPos) :
    Manager TItem TPos × List (CallbackCall TItem TPos) :=
  let mid := cleanupMid m
  let calls := if mid.state.isDragging then [CallbackCall.onDragEnd] else []
  ({ mid with state := emptyDragState, lastPointerPos := none }, calls)

/-- Source `isActivePointer`: with no armed pointer every event passes;
with an armed pointer, events with no numeric pointer id pass, and events
with a numeric id pass only on an exact match. -/
def isActivePointer {TItem TPos : Type} (m : Manager TItem TPos)
    (pointerId : Option Int) : Bool :=
  match m.state.activePointerId with
  | none => true
  | some active =>
    match pointerId with
    | none => true
    | some pid => pid == active

/-- Source `handlePointerDown`.  Returns the new manager state and whether
the handler reached `e.preventDefault()` (true exactly on the fully
successful pick-up path).  `target` is the event target element,
`pointerId` the numeric pointer id of the event if any. -/
def handlePointerDown {TItem TPos : Type} (config : DragDropConfig) (dom : Dom)
    (callbacks : DragDropCallbacks TItem TPos) (m : Manager TItem TPos)
    (pointerId : Option Int) (target : Option Nat) (x y : Int) :
    Manager TItem TPos × Bool :=
  if m.state.startPosition.isSome then (m, false)
  else
    match findElementByKinds dom target (draggableKinds config) with
    | none => (m, false)
    | some (draggableElement, sourceKind) =>
      match callbacks.getItemPosition draggableElement sourceKind with
      | none => (m, false)
      | some position =>
        if dom.datasetEmpty draggableElement then (m, false)
        else if (match callbacks.canDrag with
                 | some canDrag => !(canDrag draggableElement position)
                 | none => false) then (m, false)
        else
          match (match callbacks.getItemData with
                 | some getItemData => getItemData draggableElement position
                 | none => none) with
          | none => (m, false)
          | some item =>
            ({ m with
                state :=
                  { m.state with
                    startPosition := some ⟨x, y⟩
                    sourceElement := some draggableElement
                    sourcePosition := some position
                    sourceItem := some item
                    activePointerId := pointerId } }, true)

/-- Source `handlePointerMove`.  While armed below the threshold it is a
no-op; at or above the threshold it promotes the session to dragging, sets
`data-dragging` on the source and invokes `onDragStart`; while dragging it
records the latest position and schedules an animation frame if none is
pending. -/
def handlePointerMove {TItem TPos : Type} (config : DragDropConfig)
    (m : Manager TItem TPos) (pointerId : Option Int) (x y : Int) :
    Manager TItem TPos × List (CallbackCall TItem TPos) :=
  if !(isActivePointer m pointerId) then (m, [])
  else
    match m.state.startPosition, m.state.isDragging with
    | some startPos, false =>
      if distanceGe startPos ⟨x, y⟩ config.dragThreshold then
        -- `isDragging = true` is recorded first in the source; the guarded
        -- attribute write and callback follow, so the guard failure arm
        -- still keeps the promoted flag
        match m.state.sourceElement, m.state.sourcePosition, m.state.sourceItem with
        | some el, some pos, some item =>
          ({ m with
              state := { m.state with isDragging := true }
              draggingAttr := setAttr m.draggingAttr el },
            [CallbackCall.onDragStart el pos item])
        | _, _, _ => ({ m with state := { m.state with isDragging := true } }, [])
      else (m, [])
    | _, _ =>
      if !m.state.isDragging then (m, [])
      else if m.rafId then ({ m with lastPointerPos := some ⟨x, y⟩ }, [])
      else ({ m with lastPointerPos := some ⟨x, y⟩, rafId := true }, [])

/-- The droppable-kind ancestor match of the element under the cursor,
as an element (source expression `droppableMatch?.element ?? null`). -/
def droppableElementAt (config : DragDropConfig) (dom : Dom)
    (elementUnderCursor : Option Nat) : Option Nat :=
  (findElementByKinds dom elementUnderCursor (droppableKinds config)).map Prod.fst

/-- Hover-marker update on a hover change: remove `data-hovered` from the
previous carrier (if any), then set it on the new match (if any). -/
def updateHoverAttr (attrs : List Nat) (prev new : Option Nat) : List Nat :=
  match new with
  | some el =>
    setAttr (match prev with | some p => removeAttr attrs p | none => attrs) el
  | none => match prev with | some p => removeAttr attrs p | none => attrs

/-- The animation-frame callback scheduled by `handlePointerMove` while
dragging, fired by the browser: hit-test at the latest pointer position,
update the hover marker and the hovered-element reference, and invoke
`onDragMove`.  `elementUnderCursor` is the result the environment returns
for `document.elementFromPoint` at `lastPointerPos`.  A cancelled frame
(`rafId` false) never runs.  `handleAutoScroll` only calls
`window.scrollBy`, which is outside the modelled state. -/
def fireAnimationFrame {TItem TPos : Type} (config : DragDropConfig) (dom : Dom)
    (m : Manager TItem TPos) (elementUnderCursor : Option Nat) :
    Manager TItem TPos × List (CallbackCall TItem TPos) :=
  if !m.rafId then (m, [])
  else
    match m.lastPointerPos with
    | none => ({ m with rafId := false }, [])
    | some pos =>
      -- on a hover change the source removes data-hovered from the previous
      -- element (if any), sets it on the new one (if any), and updates the
      -- hovered-element reference to the new match in both arms (the new
      -- reference equals the droppable match in either arm of the source)
      if droppableElementAt config dom elementUnderCursor ≠ m.state.lastHoveredElement then
        ({ m with
            rafId := false
            hoveredAttr :=
              updateHoverAttr m.hoveredAttr m.state.lastHoveredElement
                (droppableElementAt config dom elementUnderCursor)
            state :=
              { m.state with
                lastHoveredElement := droppableElementAt config dom elementUnderCursor } },
          [CallbackCall.onDragMove pos (droppableElementAt config dom elementUnderCursor)])
      else ({ m with rafId := false },
        [CallbackCall.onDragMove pos m.state.lastHoveredElement])

/-- Source `handleAutoScroll`: the `scrollBy` argument pair, computed from
the pointer position and the viewport size.  Called by the frame callback
for its window-scrolling effect only, which is outside the manager state. -/
def handleAutoScroll (config : DragDropConfig) (pos : PointerPosition)
    (viewportWidth viewportHeight : Int) : Int × Int :=
  let scrollX : Int :=
    if pos.x < config.scrollThreshold then -config.scrollSpeed
    else if pos.x > viewportWidth - config.scrollThreshold then config.scrollSpeed
    else 0
  let scrollY : Int :=
    if pos.y < config.scrollThreshold then -config.scrollSpeed
    else if pos.y > viewportHeight - config.scrollThreshold then config.scrollSpeed
    else 0
  (scrollX, scrollY)

/-- Source `handlePointerUp`.  Armed below dragging: click resolution then
cleanup.  Dragging: drop resolution against the droppable kind set at the
release point, then cleanup.  `elementAtPoint` is the environment result
of `document.elementFromPoint` at the release coordinates. -/
def handlePointerUp {TItem TPos : Type} (config : DragDropConfig) (dom : Dom)
    (callbacks : DragDropCallbacks TItem TPos) (m : Manager TItem TPos)
    (pointerId : Option Int) (x y : Int) (elementAtPoint : Option Nat) :
    Manager TItem TPos × List (CallbackCall TItem TPos) :=
  if !(isActivePointer m pointerId) then (m, [])
  else
    match m.state.startPosition, m.state.isDragging with
    | some startPos, false =>
      -- the click callback, when the distance check and the truthiness
      -- checks on the session fields pass, precedes the cleanup calls
      if distanceLt startPos ⟨x, y⟩ config.clickThreshold then
        match m.state.sourceElement, m.state.sourcePosition with
        | some el, some pos =>
          ((cleanup m).1, CallbackCall.onClick el pos :: (cleanup m).2)
        | _, _ => cleanup m
      else cleanup m
    | _, _ =>
      match m.state.isDragging, m.state.sourcePosition, m.state.sourceItem with
      | true, some sourcePosition, some sourceItem =>
        -- the drop callback, when a droppable match resolves to a target
        -- position, precedes the cleanup calls
        match findElementByKinds dom elementAtPoint (droppableKinds config) with
        | some (droppableElement, droppableKind) =>
          match callbacks.getItemPosition droppableElement droppableKind with
          | some targetPosition =>
            ((cleanup m).1,
              CallbackCall.onDrop sourcePosition targetPosition sourceItem :: (cleanup m).2)
          | none => cleanup m
        | none => cleanup m
      | _, _, _ => cleanup m

/-- Source `handlePointerCancel`: unconditional cleanup.  Note that this
handler, unlike move and up, performs no `isActivePointer` check. -/
def handlePointerCancel {TItem TPos : Type} (m : Manager TItem TPos) :
    Manager TItem TPos × List (CallbackCall TItem TPos) :=
  cleanup m

/-- Source `handleKeyDown`: Escape cancels the session when the
`cancelOnEscape` toggle is on and a session exists. -/
def handleKeyDown {TItem TPos : Type} (config : DragDropConfig)
    (m : Manager TItem TPos) (key : String) :
    Manager TItem TPos × List (CallbackCall TItem TPos) :=
  if !config.cancelOnEscape then (m, [])
  else if key ≠ "Escape" then (m, [])
  else if !m.state.startPosition.isSome then (m, [])
  else cleanup m

/-- Source `handleMouseOut`: a window mouse-out whose `relatedTarget` is
null (the pointer left the document) cancels the session when the
`cancelOnPointerLeave` toggle is on and a session exists. -/
def handleMouseOut {TItem TPos : Type} (config : DragDropConfig)
    (m : Manager TItem TPos) (relatedTargetIsNull : Bool) :
    Manager TItem TPos × List (CallbackCall TItem TPos) :=
  if !config.cancelOnPointerLeave then (m, [])
  else if !m.state.startPosition.isSome then (m, [])
  else if !relatedTargetIsNull then (m, [])
  else cleanup m

/-- Public accessor `getState`: a read-only copy of the session record. -/
def Manager.getState {TItem TPos : Type} (m : Manager TItem TPos) :
    DragState TItem TPos :=
  m.state

/-- Public accessor `isDragging`. -/
def Manager.isDragging {TItem TPos : Type} (m : Manager TItem TPos) : Bool :=
  m.state.isDragging

/-- One externally triggered event delivered to the engine.  Events carry
the environment answers the corresponding handler reads from the browser
(event target, pointer id, coordinates, `elementFromPoint` results, key,
`relatedTarget` nullity).  `animationFrame` is the browser firing the
frame callback scheduled by a move; `destroy` is the public teardown,
which performs cleanup (listener detaching is outside the model). -/
inductive Event where
  | pointerDown (pointerId : Option Int) (target : Option Nat) (x y : Int)
  | pointerMove (pointerId : Option Int) (x y : Int)
  | animationFrame (elementUnderCursor : Option Nat)
  | pointerUp (pointerId : Option Int) (x y : Int) (elementAtPoint : Option Nat)
  | pointerCancel (pointerId : Option Int)
  | keyDown (key : String)
  | mouseOut (relatedTargetIsNull : Bool)
  | destroy
deriving DecidableEq, Repr

/-- Dispatch one event to its handler, returning the new manager state and
the lifecycle callbacks invoked, in order. -/
def step {TItem TPos : Type} (config : DragDropConfig) (dom : Dom)
    (callbacks : DragDropCallbacks TItem TPos) (m : Manager TItem TPos) :
    Event → Manager TItem TPos × List (CallbackCall TItem TPos)
  | .pointerDown pointerId target x y =>
    ((handlePointerDown config dom callbacks m pointerId target x y).1, [])
  | .pointerMove pointerId x y => handlePointerMove config m pointerId x y
  | .animationFrame elementUnderCursor =>
    fireAnimationFrame config dom m elementUnderCursor
  | .pointerUp pointerId x y elementAtPoint =>
    handlePointerUp config dom callbacks m pointerId x y elementAtPoint
  | .pointerCancel _ => handlePointerCancel m
  | .keyDown key => handleKeyDown config m key
  | .mouseOut relatedTargetIsNull => handleMouseOut config m relatedTargetIsNull
  | .destroy => cleanup m

/-- Run a sequence of events, concatenating the emitted callback calls. -/
def run {TItem TPos : Type} (config : DragDropConfig) (dom : Dom)
    (callbacks : DragDropCallbacks TItem TPos) (m : Manager TItem TPos) :
    List Event → Manager TItem TPos × List (CallbackCall TItem TPos)
  | [] => (m, [])
  | e :: es =>
    let r := step config dom callbacks m e
    let rest := run config dom callbacks r.1 es
    (rest.1, r.2 ++ rest.2)

/-- Reachable-state invariant of the engine.  An armed or dragging session
has all its fields populated; dragging implies armed; `data-dragging` sits
exactly on the source element while dragging and nowhere otherwise;
`data-hovered` sits exactly on the tracked hovered element; outside
dragging there is no hovered element, no pending frame and no recorded
pointer position. -/
abbrev ManagerInv {TItem TPos : Type} (m : Manager TItem TPos) : Prop :=
  (m.state.startPosition.isSome = true →
    m.state.sourceElement.isSome = true ∧ m.state.sourcePosition.isSome = true ∧
      m.state.sourceItem.isSome = true) ∧
  (m.state.isDragging = true → m.state.startPosition.isSome = true) ∧
  m.draggingAttr = (if m.state.isDragging then m.state.sourceElement.toList else []) ∧
  m.hoveredAttr = m.state.lastHoveredElement.toList ∧
  (m.state.isDragging = false →
    m.state.lastHoveredElement = none ∧ m.rafId = false ∧ m.lastPointerPos = none)

/-- The three externally distinguishable phases of a session. -/
inductive Phase where
  | idle
  | armed
  | dragging
deriving DecidableEq, Repr

/-- Phase of a manager state: dragging once the threshold transition has
happened, armed while a session exists below the threshold, idle
otherwise. -/
def phase {TItem TPos : Type} (m : Manager TItem TPos) : Phase :=
  if m.state.isDragging then Phase.dragging
  else if m.state.startPosition.isSome then Phase.armed
  else Phase.idle


/-- Removing an attribute from an element that is the only carrier leaves
no carrier. -/
theorem removeAttr_singleton (el : Nat) : removeAttr [el] el = [] := by
  simp [removeAttr]

/-- Removing an attribute when no element carries it is a no-op. -/
theorem removeAttr_nil (el : Nat) : removeAttr [] el = [] := rfl

/-- Setting an attribute when no element carries it yields one carrier. -/
theorem setAttr_nil (el : Nat) : setAttr [] el = [el] := rfl

/-- The invariant holds for a freshly constructed manager. -/
theorem inv_initial {TItem TPos : Type} : ManagerInv (initialManager : Manager TItem TPos) := by
  refine ⟨?_, ?_, ?_, ?_, ?_⟩ <;> simp [initialManager, emptyDragState]

/-- The session record is untouched by the pre-callback part of cleanup. -/
theorem cleanupMid_state {TItem TPos : Type} (m : Manager TItem TPos) :
    (cleanupMid m).state = m.state := rfl

/-- Under the invariant, the pre-callback part of cleanup clears both
engine-owned attributes. -/
theorem cleanupMid_attrs {TItem TPos : Type} {m : Manager TItem TPos} (h : ManagerInv m) :
    (cleanupMid m).draggingAttr = [] ∧ (cleanupMid m).hoveredAttr = [] := by
  obtain ⟨-, -, h3, h4, -⟩ := h
  constructor
  · show (match m.state.sourceElement with
      | some el => removeAttr m.draggingAttr el
      | none => m.draggingAttr) = []
    cases hse : m.state.sourceElement with
    | none =>
      simp only [hse, Option.toList] at h3
      simp [h3, ite_self]
    | some el =>
      cases hdr : m.state.isDragging <;> simp [hse, hdr] at h3 <;>
        simp [h3, removeAttr_nil, removeAttr_singleton]
  · show (match m.state.lastHoveredElement with
      | some el => removeAttr m.hoveredAttr el
      | none => m.hoveredAttr) = []
    cases hlh : m.state.lastHoveredElement with
    | none => simpa [hlh] using h4
    | some el => simp [hlh] at h4; simp [h4, removeAttr_singleton]

/-- Under the invariant, cleanup returns the pristine initial state and
invokes exactly the drag-end callback when the session was dragging and
nothing otherwise. -/
theorem cleanup_eq {TItem TPos : Type} {m : Manager TItem TPos} (h : ManagerInv m) :
    cleanup m =
      (initialManager, if m.state.isDragging then [CallbackCall.onDragEnd] else []) := by
  obtain ⟨hda, hha⟩ := cleanupMid_attrs h
  have h1 : (cleanup m).1 = initialManager := by
    show ({ cleanupMid m with state := emptyDragState, lastPointerPos := none } :
        Manager TItem TPos) = initialManager
    have : ({ cleanupMid m with state := emptyDragState, lastPointerPos := none } :
        Manager TItem TPos) =
        ⟨emptyDragState, (cleanupMid m).rafId, none, (cleanupMid m).draggingAttr,
          (cleanupMid m).hoveredAttr⟩ := rfl
    rw [this, hda, hha]
    rfl
  have h2 : (cleanup m).2 = (if m.state.isDragging then [CallbackCall.onDragEnd] else []) := rfl
  calc cleanup m = ((cleanup m).1, (cleanup m).2) := rfl
    _ = _ := by rw [h1, h2]

/-- Pointer-down preserves the invariant. -/
theorem inv_handlePointerDown {TItem TPos : Type} {config : DragDropConfig} {dom : Dom}
    {callbacks : DragDropCallbacks TItem TPos} {m : Manager TItem TPos}
    {pointerId : Option Int} {target : Option Nat} {x y : Int} (h : ManagerInv m) :
    ManagerInv (handlePointerDown config dom callbacks m pointerId target x y).1 := by
  unfold handlePointerDown
  split
  · exact h
  next hstart =>
    split
    · exact h
    next draggableElement sourceKind hfind =>
      split
      · exact h
      next position hpos =>
        split
        · exact h
        · split
          · exact h
          · split
            · exact h
            next item hitem =>
              obtain ⟨h1, h2, h3, h4, h5⟩ := h
              have hstart' : m.state.startPosition.isSome = false := by
                cases hb : m.state.startPosition.isSome
                · rfl
                · exact absurd hb hstart
              have hdr : m.state.isDragging = false := by
                cases hb : m.state.isDragging
                · rfl
                · rw [h2 hb] at hstart'; cases hstart'
              refine ⟨fun _ => ⟨rfl, rfl, rfl⟩, fun _ => rfl, ?_, h4, ?_⟩
              · show m.draggingAttr = _
                rw [hdr] at h3
                simpa [hdr] using h3
              · intro _
                exact h5 hdr

/-- Pointer-move preserves the invariant. -/
theorem inv_handlePointerMove {TItem TPos : Type} {config : DragDropConfig}
    {m : Manager TItem TPos} {pointerId : Option Int} {x y : Int} (h : ManagerInv m) :
    ManagerInv (handlePointerMove config m pointerId x y).1 := by
  obtain ⟨h1, h2, h3, h4, h5⟩ := h
  unfold handlePointerMove
  split
  · exact ⟨h1, h2, h3, h4, h5⟩
  · split
    next startPos hsp hsd =>
      split
      · -- threshold reached
        split
        next el pos item hse hspos hsi =>
          refine ⟨fun _ => by simp [hse, hspos, hsi], fun _ => ?_, ?_, h4,
            by intro hc; cases hc⟩
          · show (m.state.startPosition).isSome = true
            rw [hsp]; rfl
          · show setAttr m.draggingAttr el =
              (if true = true then (m.state.sourceElement).toList else [])
            rw [hsd] at h3
            simp only [Bool.false_eq_true, if_false] at h3
            rw [h3, hse]
            rfl
        next hno =>
          exfalso
          have hs : m.state.startPosition.isSome = true := by rw [hsp]; rfl
          obtain ⟨he, hp, hi⟩ := h1 hs
          obtain ⟨el, hel⟩ := Option.isSome_iff_exists.mp he
          obtain ⟨pos, hpos⟩ := Option.isSome_iff_exists.mp hp
          obtain ⟨item, hitem⟩ := Option.isSome_iff_exists.mp hi
          exact hno el pos item hel hpos hitem
      · exact ⟨h1, h2, h3, h4, h5⟩
    · split
      · exact ⟨h1, h2, h3, h4, h5⟩
      next hdrag =>
        have hdr : m.state.isDragging = true := by
          cases hb : m.state.isDragging
          · rw [hb] at hdrag; exact absurd rfl hdrag
          · rfl
        split <;>
          exact ⟨h1, h2, h3, h4, by rw [hdr]; intro hc; cases hc⟩

/-- The animation-frame callback preserves the invariant. -/
theorem inv_fireAnimationFrame {TItem TPos : Type} {config : DragDropConfig} {dom : Dom}
    {m : Manager TItem TPos} {elementUnderCursor : Option Nat} (h : ManagerInv m) :
    ManagerInv (fireAnimationFrame config dom m elementUnderCursor).1 := by
  obtain ⟨h1, h2, h3, h4, h5⟩ := h
  unfold fireAnimationFrame
  split
  · exact ⟨h1, h2, h3, h4, h5⟩
  next hraf =>
    have hrafT : m.rafId = true := by
      cases hb : m.rafId
      · rw [hb] at hraf; exact absurd rfl hraf
      · rfl
    have hdr : m.state.isDragging = true := by
      cases hb : m.state.isDragging
      · rw [(h5 hb).2.1] at hrafT; cases hrafT
      · rfl
    split
    · exact ⟨h1, h2, h3, h4, by rw [hdr]; intro hc; cases hc⟩
    · split
      next hne =>
        refine ⟨h1, h2, h3, ?_, by rw [hdr]; intro hc; cases hc⟩
        show updateHoverAttr m.hoveredAttr m.state.lastHoveredElement
            (droppableElementAt config dom elementUnderCursor) =
          (droppableElementAt config dom elementUnderCursor).toList
        unfold updateHoverAttr
        cases hdrop : droppableElementAt config dom elementUnderCursor with
        | none =>
          cases hlh : m.state.lastHoveredElement with
          | none => rw [hlh] at h4; simpa using h4
          | some prev => rw [hlh] at h4; simp at h4; simp [h4, removeAttr_singleton]
        | some el =>
          cases hlh : m.state.lastHoveredElement with
          | none => rw [hlh] at h4; simp at h4; simp [h4, setAttr_nil]
          | some prev =>
            rw [hlh] at h4; simp at h4
            simp [h4, removeAttr_singleton, setAttr_nil]
      · exact ⟨h1, h2, h3, h4, by rw [hdr]; intro hc; cases hc⟩

/-- Pointer-up preserves the invariant. -/
theorem inv_handlePointerUp {TItem TPos : Type} {config : DragDropConfig} {dom : Dom}
    {callbacks : DragDropCallbacks TItem TPos} {m : Manager TItem TPos}
    {pointerId : Option Int} {x y : Int} {elementAtPoint : Option Nat} (h : ManagerInv m) :
    ManagerInv (handlePointerUp config dom callbacks m pointerId x y elementAtPoint).1 := by
  have hc : ManagerInv (cleanup m).1 := by rw [cleanup_eq h]; exact inv_initial
  unfold handlePointerUp
  split
  · exact h
  · split
    · split
      · split <;> exact hc
      · exact hc
    · split
      · split
        · split <;> exact hc
        · exact hc
      · exact hc

/-- Every event dispatch preserves the invariant. -/
theorem inv_step {TItem TPos : Type} {config : DragDropConfig} {dom : Dom}
    {callbacks : DragDropCallbacks TItem TPos} {m : Manager TItem TPos}
    (e : Event) (h : ManagerInv m) :
    ManagerInv (step config dom callbacks m e).1 := by
  have hc : ManagerInv (cleanup m).1 := by rw [cleanup_eq h]; exact inv_initial
  cases e with
  | pointerDown pointerId target x y => exact inv_handlePointerDown h
  | pointerMove pointerId x y => exact inv_handlePointerMove h
  | animationFrame elementUnderCursor => exact inv_fireAnimationFrame h
  | pointerUp pointerId x y elementAtPoint => exact inv_handlePointerUp h
  | pointerCancel pointerId => exact hc
  | keyDown key =>
    show ManagerInv (handleKeyDown config m key).1
    unfold handleKeyDown
    split
    · exact h
    · split
      · exact h
      · split
        · exact h
        · exact hc
  | mouseOut relatedTargetIsNull =>
    show ManagerInv (handleMouseOut config m relatedTargetIsNull).1
    unfold handleMouseOut
    split
    · exact h
    · split
      · exact h
      · split
        · exact h
        · exact hc
  | destroy => exact hc

/-- The invariant holds in every state reachable by an event sequence. -/
theorem inv_run {TItem TPos : Type} {config : DragDropConfig} {dom : Dom}
    {callbacks : DragDropCallbacks TItem TPos} {m : Manager TItem TPos}
    (events : List Event) (h : ManagerInv m) :
    ManagerInv (run config dom callbacks m events).1 := by
  induction events generalizing m with
  | nil => exact h
  | cons e es ih => exact ih (inv_step e h)

/-- The per-event contract of the session automaton: one dispatched event
either emits nothing and keeps the phase (or moves idle to armed on a
successful pick-up, or armed to idle on a session that resolves without a
click), or emits exactly one of the five lifecycle callbacks in a
phase-appropriate way — a click resolving an armed session, a drag-start
promoting armed to dragging, a drag-move while dragging, or a cleanup of a
dragging session emitting drag-end alone or drop immediately followed by
drag-end. -/
def StepShape {TItem TPos : Type} (m r1 : Manager TItem TPos)
    (out : List (CallbackCall TItem TPos)) : Prop :=
  (out = [] ∧ phase r1 = phase m) ∨
  (phase m = Phase.idle ∧ out = [] ∧ phase r1 = Phase.armed) ∨
  (phase m = Phase.armed ∧ out = [] ∧ phase r1 = Phase.idle) ∨
  (∃ el pos, phase m = Phase.armed ∧
    out = [CallbackCall.onClick el pos] ∧ phase r1 = Phase.idle) ∨
  (∃ el pos item, phase m = Phase.armed ∧
    out = [CallbackCall.onDragStart el pos item] ∧ phase r1 = Phase.dragging) ∨
  (∃ pos hovered, phase m = Phase.dragging ∧
    out = [CallbackCall.onDragMove pos hovered] ∧ phase r1 = Phase.dragging) ∨
  (phase m = Phase.dragging ∧ out = [CallbackCall.onDragEnd] ∧ phase r1 = Phase.idle) ∨
  (∃ sp tp si, phase m = Phase.dragging ∧
    out = [CallbackCall.onDrop sp tp si, CallbackCall.onDragEnd] ∧ phase r1 = Phase.idle)

/-- The phase of the initial state is idle. -/
theorem phase_initial {TItem TPos : Type} :
    phase (initialManager : Manager TItem TPos) = Phase.idle := rfl

/-- Cleanup fits the automaton: it emits drag-end exactly from the
dragging phase and always lands in the idle phase. -/
theorem shape_cleanup {TItem TPos : Type} {m : Manager TItem TPos} (h : ManagerInv m) :
    StepShape m (cleanup m).1 (cleanup m).2 := by
  have hcl := cleanup_eq h
  cases hdr : m.state.isDragging
  · rw [hdr] at hcl
    simp only [Bool.false_eq_true, if_false] at hcl
    rw [hcl]
    cases hsp : m.state.startPosition.isSome
    · exact Or.inl ⟨rfl, by simp [phase, hdr, hsp, initialManager, emptyDragState]⟩
    · exact Or.inr (Or.inr (Or.inl ⟨by simp [phase, hdr, hsp],
        rfl, by simp [phase, initialManager, emptyDragState]⟩))
  · rw [hdr] at hcl
    simp only [if_true] at hcl
    rw [hcl]
    exact Or.inr (Or.inr (Or.inr (Or.inr (Or.inr (Or.inr (Or.inl
      ⟨by simp [phase, hdr], rfl, by simp [phase, initialManager, emptyDragState]⟩))))))

/-- Pointer-down fits the automaton: no callback, and either no phase
change or a successful idle-to-armed pick-up. -/
theorem shape_handlePointerDown {TItem TPos : Type} {config : DragDropConfig} {dom : Dom}
    {callbacks : DragDropCallbacks TItem TPos} {m : Manager TItem TPos}
    {pointerId : Option Int} {target : Option Nat} {x y : Int} (h : ManagerInv m) :
    StepShape m (handlePointerDown config dom callbacks m pointerId target x y).1 [] := by
  obtain ⟨h1, h2, h3, h4, h5⟩ := h
  unfold handlePointerDown
  split
  · exact Or.inl ⟨rfl, rfl⟩
  next hstart =>
    have hstart' : m.state.startPosition.isSome = false := by
      cases hb : m.state.startPosition.isSome
      · rfl
      · exact absurd hb hstart
    have hdr : m.state.isDragging = false := by
      cases hb : m.state.isDragging
      · rfl
      · rw [h2 hb] at hstart'; cases hstart'
    split
    · exact Or.inl ⟨rfl, rfl⟩
    · split
      · exact Or.inl ⟨rfl, rfl⟩
      · split
        · exact Or.inl ⟨rfl, rfl⟩
        · split
          · exact Or.inl ⟨rfl, rfl⟩
          · split
            · exact Or.inl ⟨rfl, rfl⟩
            · exact Or.inr (Or.inl
                ⟨by simp [phase, hdr, hstart'], rfl, by simp [phase, hdr]⟩)

/-- Pointer-move fits the automaton: a no-op, or the unique armed-to-
dragging promotion emitting drag-start, or frame scheduling while
dragging with no callback. -/
theorem shape_handlePointerMove {TItem TPos : Type} {config : DragDropConfig}
    {m : Manager TItem TPos} {pointerId : Option Int} {x y : Int} (h : ManagerInv m) :
    StepShape m (handlePointerMove config m pointerId x y).1
      (handlePointerMove config m pointerId x y).2 := by
  obtain ⟨h1, h2, h3, h4, h5⟩ := h
  unfold handlePointerMove
  split
  · exact Or.inl ⟨rfl, rfl⟩
  · split
    next startPos hsp hsd =>
      split
      · split
        next el pos item hse hspos hsi =>
          exact Or.inr (Or.inr (Or.inr (Or.inr (Or.inl
            ⟨el, pos, item, by simp [phase, hsd, hsp], rfl, by simp [phase]⟩))))
        next hno =>
          exfalso
          have hs : m.state.startPosition.isSome = true := by rw [hsp]; rfl
          obtain ⟨he, hp, hi⟩ := h1 hs
          obtain ⟨el, hel⟩ := Option.isSome_iff_exists.mp he
          obtain ⟨pos, hpos⟩ := Option.isSome_iff_exists.mp hp
          obtain ⟨item, hitem⟩ := Option.isSome_iff_exists.mp hi
          exact hno el pos item hel hpos hitem
      · exact Or.inl ⟨rfl, rfl⟩
    · split
      · exact Or.inl ⟨rfl, rfl⟩
      · split
        · exact Or.inl ⟨rfl, rfl⟩
        · exact Or.inl ⟨rfl, rfl⟩

/-- The animation-frame callback fits the automaton: it only ever runs
with a pending frame, hence while dragging, emits one drag-move and stays
in the dragging phase; a cancelled or position-free frame is silent. -/
theorem shape_fireAnimationFrame {TItem TPos : Type} {config : DragDropConfig} {dom : Dom}
    {m : Manager TItem TPos} {elementUnderCursor : Option Nat} (h : ManagerInv m) :
    StepShape m (fireAnimationFrame config dom m elementUnderCursor).1
      (fireAnimationFrame config dom m elementUnderCursor).2 := by
  obtain ⟨h1, h2, h3, h4, h5⟩ := h
  unfold fireAnimationFrame
  split
  · exact Or.inl ⟨rfl, rfl⟩
  next hraf =>
    have hrafT : m.rafId = true := by
      cases hb : m.rafId
      · rw [hb] at hraf; exact absurd rfl hraf
      · rfl
    have hdr : m.state.isDragging = true := by
      cases hb : m.state.isDragging
      · rw [(h5 hb).2.1] at hrafT; cases hrafT
      · rfl
    split
    · exact Or.inl ⟨rfl, rfl⟩
    next pos hlpp =>
      split
      · exact Or.inr (Or.inr (Or.inr (Or.inr (Or.inr (Or.inl
          ⟨pos, droppableElementAt config dom elementUnderCursor,
            by simp [phase, hdr], rfl, by simp [phase, hdr]⟩)))))
      · exact Or.inr (Or.inr (Or.inr (Or.inr (Or.inr (Or.inl
          ⟨pos, m.state.lastHoveredElement,
            by simp [phase, hdr], rfl, by simp [phase, hdr]⟩)))))

/-- Pointer-up fits the automaton: click resolution of an armed session,
drop-then-end or end-alone cleanup of a dragging session, or a silent
no-op / idle cleanup. -/
theorem shape_handlePointerUp {TItem TPos : Type} {config : DragDropConfig} {dom : Dom}
    {callbacks : DragDropCallbacks TItem TPos} {m : Manager TItem TPos}
    {pointerId : Option Int} {x y : Int} {elementAtPoint : Option Nat} (h : ManagerInv m) :
    StepShape m (handlePointerUp config dom callbacks m pointerId x y elementAtPoint).1
      (handlePointerUp config dom callbacks m pointerId x y elementAtPoint).2 := by
  have hcl := cleanup_eq h
  obtain ⟨h1, h2, h3, h4, h5⟩ := h
  unfold handlePointerUp
  split
  · exact Or.inl ⟨rfl, rfl⟩
  · split
    next startPos hsp hsd =>
      rw [hsd] at hcl
      simp only [Bool.false_eq_true, if_false] at hcl
      split
      · split
        next el pos hse hspos =>
          refine Or.inr (Or.inr (Or.inr (Or.inl ⟨el, pos, by simp [phase, hsd, hsp], ?_, ?_⟩)))
          · rw [hcl]
          · rw [hcl]; simp [phase, initialManager, emptyDragState]
        next hno =>
          exfalso
          have hs : m.state.startPosition.isSome = true := by rw [hsp]; rfl
          obtain ⟨he, hp, -⟩ := h1 hs
          obtain ⟨el, hel⟩ := Option.isSome_iff_exists.mp he
          obtain ⟨pos, hpos⟩ := Option.isSome_iff_exists.mp hp
          exact hno el pos hel hpos
      · refine Or.inr (Or.inr (Or.inl ⟨by simp [phase, hsd, hsp], ?_, ?_⟩))
        · rw [hcl]
        · rw [hcl]; simp [phase, initialManager, emptyDragState]
    next hOuter =>
      split
      next sourcePosition sourceItem hdr hspos hsi =>
        rw [hdr] at hcl
        simp only [if_true] at hcl
        split
        next droppableElement droppableKind hfind =>
          split
          next targetPosition hgp =>
            refine Or.inr (Or.inr (Or.inr (Or.inr (Or.inr (Or.inr (Or.inr
              ⟨sourcePosition, targetPosition, sourceItem,
                by simp [phase, hdr], ?_, ?_⟩))))))
            · rw [hcl]
            · rw [hcl]; simp [phase, initialManager, emptyDragState]
          next hgp =>
            refine Or.inr (Or.inr (Or.inr (Or.inr (Or.inr (Or.inr (Or.inl
              ⟨by simp [phase, hdr], ?_, ?_⟩))))))
            · rw [hcl]
            · rw [hcl]; simp [phase, initialManager, emptyDragState]
        next hfind =>
          refine Or.inr (Or.inr (Or.inr (Or.inr (Or.inr (Or.inr (Or.inl
            ⟨by simp [phase, hdr], ?_, ?_⟩))))))
          · rw [hcl]
          · rw [hcl]; simp [phase, initialManager, emptyDragState]
      next hnoT =>
        cases hdr : m.state.isDragging
        · have hspn : m.state.startPosition = none := by
            cases hspc : m.state.startPosition with
            | none => rfl
            | some p => exact absurd (hOuter p hspc hdr) (fun hf => hf)
          rw [hdr] at hcl
          simp only [Bool.false_eq_true, if_false] at hcl
          refine Or.inl ⟨?_, ?_⟩
          · rw [hcl]
          · rw [hcl]; simp [phase, initialManager, emptyDragState, hdr, hspn]
        · exfalso
          obtain ⟨-, hp, hi⟩ := h1 (h2 hdr)
          obtain ⟨pos, hpos⟩ := Option.isSome_iff_exists.mp hp
          obtain ⟨item, hitem⟩ := Option.isSome_iff_exists.mp hi
          exact hnoT pos item hdr hpos hitem

/-- C1: within one session the callback order is strictly
start, zero or more moves, then either drop immediately followed by end,
or end alone, or no callback at all (click-resolved sessions emit only
click).  Formally: under the reachable-state invariant, every dispatched
event obeys the session automaton `StepShape`, in which the dragging
phase is entered only by the transition that emits drag-start, is left
only by transitions that emit drag-end (alone, or immediately preceded by
drop in the same emission list of the single cleanup pass), drag-end is
emitted only from the dragging phase (so end fires exactly in sessions
where start fired), and click is emitted only from the armed phase, i.e.
only in sessions where drag-start never fired. -/
theorem lifecycle_callback_order {TItem TPos : Type} (config : DragDropConfig) (dom : Dom)
    (callbacks : DragDropCallbacks TItem TPos) (m : Manager TItem TPos) (e : Event)
    (h : ManagerInv m) :
    StepShape m (step config dom callbacks m e).1 (step config dom callbacks m e).2 := by
  cases e with
  | pointerDown pointerId target x y => exact shape_handlePointerDown h
  | pointerMove pointerId x y => exact shape_handlePointerMove h
  | animationFrame elementUnderCursor => exact shape_fireAnimationFrame h
  | pointerUp pointerId x y elementAtPoint => exact shape_handlePointerUp h
  | pointerCancel pointerId => exact shape_cleanup h
  | keyDown key =>
    show StepShape m (handleKeyDown config m key).1 (handleKeyDown config m key).2
    unfold handleKeyDown
    split
    · exact Or.inl ⟨rfl, rfl⟩
    · split
      · exact Or.inl ⟨rfl, rfl⟩
      · split
        · exact Or.inl ⟨rfl, rfl⟩
        · exact shape_cleanup h
  | mouseOut relatedTargetIsNull =>
    show StepShape m (handleMouseOut config m relatedTargetIsNull).1
      (handleMouseOut config m relatedTargetIsNull).2
    unfold handleMouseOut
    split
    · exact Or.inl ⟨rfl, rfl⟩
    · split
      · exact Or.inl ⟨rfl, rfl⟩
      · split
        · exact Or.inl ⟨rfl, rfl⟩
        · exact shape_cleanup h
  | destroy => exact shape_cleanup h

/-- Concrete configuration used to exercise the theorems: one draggable
and droppable kind, default thresholds and toggles. -/
def wCfg : DragDropConfig := { draggableKind := ["cell"], droppableKind := ["cell"] }

/-- Concrete DOM: container 0 with two kind-"cell" children 1 and 2. -/
def wDom : Dom :=
  { container := 0
    parentElement := fun e => if e = 0 then none else some 0
    datasetKind := fun e => if e = 1 ∨ e = 2 then some "cell" else none
    datasetEmpty := fun _ => false
    height := 4 }

/-- Concrete accessors: element `el` has position `el * 10` and item
`el + 100`. -/
def wCbs : DragDropCallbacks Nat Nat :=
  { canDrag := none
    getItemData := some (fun el _ => some (el + 100))
    getItemPosition := fun el _ => some (el * 10) }

/-- A session armed on element 1 by pointer 1 at the origin. -/
def mArmed : Manager Nat Nat :=
  (step wCfg wDom wCbs initialManager (Event.pointerDown (some 1) (some 1) 0 0)).1

/-- The armed session promoted to dragging by a 20-pixel move. -/
def mDragging : Manager Nat Nat :=
  (step wCfg wDom wCbs mArmed (Event.pointerMove (some 1) 20 0)).1

/-- Witness for `lifecycle_callback_order` at a concrete dragging state
and release event. -/
theorem lifecycle_callback_order_witness :
    ManagerInv mDragging ∧
      StepShape mDragging
        (step wCfg wDom wCbs mDragging (Event.pointerUp (some 1) 20 0 (some 2))).1
        (step wCfg wDom wCbs mDragging (Event.pointerUp (some 1) 20 0 (some 2))).2 :=
  ⟨by decide,
    lifecycle_callback_order wCfg wDom wCbs mDragging
      (Event.pointerUp (some 1) 20 0 (some 2)) (by decide)⟩

/-- C2: at every externally observable point — the initial state and
after each dispatched event from an invariant state — the session flag
being true implies the source element carries data-dragging (and is its
only carrier), and the flag being false implies data-dragging is absent
from every element. -/
theorem dragging_marker_invariant {TItem TPos : Type} (config : DragDropConfig) (dom : Dom)
    (callbacks : DragDropCallbacks TItem TPos) (m : Manager TItem TPos) (e : Event)
    (h : ManagerInv m) :
    ManagerInv (initialManager : Manager TItem TPos) ∧
    (initialManager : Manager TItem TPos).draggingAttr = [] ∧
    ManagerInv (step config dom callbacks m e).1 ∧
    ((step config dom callbacks m e).1.state.isDragging = true →
      ∃ el, (step config dom callbacks m e).1.state.sourceElement = some el ∧
        (step config dom callbacks m e).1.draggingAttr = [el]) ∧
    ((step config dom callbacks m e).1.state.isDragging = false →
      (step config dom callbacks m e).1.draggingAttr = []) := by
  obtain ⟨h1, h2, h3, h4, h5⟩ := @inv_step TItem TPos config dom callbacks m e h
  refine ⟨inv_initial, rfl, inv_step e h, ?_, ?_⟩
  · intro hdr
    obtain ⟨he, -, -⟩ := h1 (h2 hdr)
    obtain ⟨el, hel⟩ := Option.isSome_iff_exists.mp he
    refine ⟨el, hel, ?_⟩
    rw [h3, hdr, hel]
    rfl
  · intro hdr
    rw [h3, hdr]
    rfl

/-- Witness for `dragging_marker_invariant` at the concrete armed state
promoted by a threshold-crossing move. -/
theorem dragging_marker_invariant_witness :
    ManagerInv mArmed ∧
      (ManagerInv (initialManager : Manager Nat Nat) ∧
        (initialManager : Manager Nat Nat).draggingAttr = [] ∧
        ManagerInv (step wCfg wDom wCbs mArmed (Event.pointerMove (some 1) 20 0)).1 ∧
        ((step wCfg wDom wCbs mArmed (Event.pointerMove (some 1) 20 0)).1.state.isDragging =
            true →
          ∃ el,
            (step wCfg wDom wCbs mArmed
                  (Event.pointerMove (some 1) 20 0)).1.state.sourceElement = some el ∧
              (step wCfg wDom wCbs mArmed (Event.pointerMove (some 1) 20 0)).1.draggingAttr =
                [el]) ∧
        ((step wCfg wDom wCbs mArmed (Event.pointerMove (some 1) 20 0)).1.state.isDragging =
            false →
          (step wCfg wDom wCbs mArmed (Event.pointerMove (some 1) 20 0)).1.draggingAttr =
            [])) :=
  ⟨by decide,
    dragging_marker_invariant wCfg wDom wCbs mArmed (Event.pointerMove (some 1) 20 0)
      (by decide)⟩

/-- C3: a pointer-cancel event, an Escape keydown under the
cancelOnEscape toggle, and a window mouse-out with empty related target
under the cancelOnPointerLeave toggle each trigger cleanup when a session
is dragging (so the session resets and drag-end fires), and a disabled
toggle makes the corresponding event leave the session and all attributes
unchanged. -/
theorem cancellation_sources {TItem TPos : Type} (config : DragDropConfig) (dom : Dom)
    (callbacks : DragDropCallbacks TItem TPos) (m : Manager TItem TPos)
    (h : ManagerInv m) :
    (m.state.isDragging = true →
      (∀ pointerId, step config dom callbacks m (Event.pointerCancel pointerId) =
        (initialManager, [CallbackCall.onDragEnd])) ∧
      (config.cancelOnEscape = true →
        step config dom callbacks m (Event.keyDown "Escape") =
          (initialManager, [CallbackCall.onDragEnd])) ∧
      (config.cancelOnPointerLeave = true →
        step config dom callbacks m (Event.mouseOut true) =
          (initialManager, [CallbackCall.onDragEnd]))) ∧
    (config.cancelOnEscape = false →
      ∀ key, step config dom callbacks m (Event.keyDown key) = (m, [])) ∧
    (config.cancelOnPointerLeave = false →
      ∀ relatedTargetIsNull,
        step config dom callbacks m (Event.mouseOut relatedTargetIsNull) = (m, [])) := by
  have hcl := cleanup_eq h
  obtain ⟨h1, h2, h3, h4, h5⟩ := h
  refine ⟨?_, ?_, ?_⟩
  · intro hdr
    rw [hdr] at hcl
    simp only [if_true] at hcl
    have hsp : m.state.startPosition.isSome = true := h2 hdr
    refine ⟨fun _ => hcl, fun hce => ?_, fun hcp => ?_⟩
    · show handleKeyDown config m "Escape" = _
      unfold handleKeyDown
      simp [hce, hsp, hcl]
    · show handleMouseOut config m true = _
      unfold handleMouseOut
      simp [hcp, hsp, hcl]
  · intro hce key
    show handleKeyDown config m key = (m, [])
    unfold handleKeyDown
    simp [hce]
  · intro hcp relatedTargetIsNull
    show handleMouseOut config m relatedTargetIsNull = (m, [])
    unfold handleMouseOut
    simp [hcp]

/-- Witness for `cancellation_sources`: a pointer-cancel with a different
pointer id cleans up the concrete dragging session. -/
theorem cancellation_sources_witness :
    ManagerInv mDragging ∧ mDragging.state.isDragging = true ∧
      step wCfg wDom wCbs mDragging (Event.pointerCancel (some 9)) =
        (initialManager, [CallbackCall.onDragEnd]) :=
  ⟨by decide, by decide,
    ((cancellation_sources wCfg wDom wCbs mDragging (by decide)).1 (by decide)).1 (some 9)⟩

/-- Counterexample to C4 as stated: the claim says all subsequent move,
up, and cancel events are checked against the armed pointer identifier
and events carrying a different identifier are ignored entirely; but
`handlePointerCancel` performs no such check, so a pointer-cancel
carrying pointer id 2 terminates the session armed for pointer id 1
instead of being ignored. -/
theorem pointer_cancel_ignores_other_pointer_cex :
    mArmed.state.activePointerId = some 1 ∧
    mArmed.state.startPosition = some ⟨0, 0⟩ ∧
    (step wCfg wDom wCbs mArmed (Event.pointerCancel (some 2))).1.state.startPosition =
      none ∧
    ¬((step wCfg wDom wCbs mArmed (Event.pointerCancel (some 2))).1 = mArmed) := by
  decide

/-- C4 amended: once a session is armed for a pointer identifier, move
and up events carrying a different numeric pointer identifier are ignored
entirely; a pointer-cancel event triggers cleanup regardless of its
pointer identifier; and a pointer-down arriving while a session exists
does not alter or terminate that session. -/
theorem pointer_discipline_amended {TItem TPos : Type} (config : DragDropConfig) (dom : Dom)
    (callbacks : DragDropCallbacks TItem TPos) (m : Manager TItem TPos) :
    (∀ (p a : Int), m.state.activePointerId = some a → ¬(p = a) →
      (∀ x y, step config dom callbacks m (Event.pointerMove (some p) x y) = (m, [])) ∧
      (∀ x y elementAtPoint,
        step config dom callbacks m (Event.pointerUp (some p) x y elementAtPoint) =
          (m, []))) ∧
    (∀ pointerId target x y, m.state.startPosition.isSome = true →
      step config dom callbacks m (Event.pointerDown pointerId target x y) = (m, [])) ∧
    (∀ pointerId, step config dom callbacks m (Event.pointerCancel pointerId) = cleanup m) := by
  refine ⟨?_, ?_, fun _ => rfl⟩
  · intro p a ha hne
    have hact : isActivePointer m (some p) = false := by
      unfold isActivePointer
      rw [ha]
      simp only [beq_eq_false_iff_ne, ne_eq]
      exact hne
    constructor
    · intro x y
      show handlePointerMove config m (some p) x y = (m, [])
      unfold handlePointerMove
      simp [hact]
    · intro x y elementAtPoint
      show handlePointerUp config dom callbacks m (some p) x y elementAtPoint = (m, [])
      unfold handlePointerUp
      simp [hact]
  · intro pointerId target x y hsp
    show ((handlePointerDown config dom callbacks m pointerId target x y).1, []) = (m, [])
    unfold handlePointerDown
    simp [hsp]

/-- Witness for `pointer_discipline_amended`: a move from pointer 2 on a
session armed for pointer 1 is ignored. -/
theorem pointer_discipline_amended_witness :
    mArmed.state.activePointerId = some 1 ∧
      step wCfg wDom wCbs mArmed (Event.pointerMove (some 2) 50 0) = (mArmed, []) :=
  ⟨by decide,
    ((pointer_discipline_amended wCfg wDom wCbs mArmed).1 2 1 (by decide) (by decide)).1
      50 0⟩

/-- C5: on a pointer-move from the active pointer while armed, the
transition to dragging — setting data-dragging on the source and
invoking drag-start — happens exactly when the Euclidean distance from
the start to the current coordinates is at or above the drag threshold
(`distanceGe` is the squared form of the comparison the source makes on
the square root, exact for the non-negative threshold); below the
threshold the event is a no-op.  On an already-dragging session a
pointer-move never emits drag-start and never clears the flag, and only
cleanup resets the flag, so the transition happens at most once per
session. -/
theorem drag_threshold_transition {TItem TPos : Type} (config : DragDropConfig)
    (m : Manager TItem TPos) (pointerId : Option Int) (x y : Int)
    (h : ManagerInv m) (hact : isActivePointer m pointerId = true) :
    (∀ startPos, m.state.startPosition = some startPos → m.state.isDragging = false →
      (distanceGe startPos ⟨x, y⟩ config.dragThreshold = true →
        ∃ el pos item,
          m.state.sourceElement = some el ∧ m.state.sourcePosition = some pos ∧
          m.state.sourceItem = some item ∧
          handlePointerMove config m pointerId x y =
            ({ m with
                state := { m.state with isDragging := true }
                draggingAttr := setAttr m.draggingAttr el },
              [CallbackCall.onDragStart el pos item])) ∧
      (distanceGe startPos ⟨x, y⟩ config.dragThreshold = false →
        handlePointerMove config m pointerId x y = (m, []))) ∧
    (m.state.isDragging = true →
      (handlePointerMove config m pointerId x y).1.state.isDragging = true ∧
      (handlePointerMove config m pointerId x y).2 = []) := by
  obtain ⟨h1, h2, h3, h4, h5⟩ := h
  constructor
  · intro startPos hsp hdr
    have hs : m.state.startPosition.isSome = true := by rw [hsp]; rfl
    obtain ⟨he, hp, hi⟩ := h1 hs
    obtain ⟨el, hel⟩ := Option.isSome_iff_exists.mp he
    obtain ⟨pos, hpos⟩ := Option.isSome_iff_exists.mp hp
    obtain ⟨item, hitem⟩ := Option.isSome_iff_exists.mp hi
    constructor
    · intro hge
      refine ⟨el, pos, item, hel, hpos, hitem, ?_⟩
      unfold handlePointerMove
      simp [hact, hsp, hdr, hge, hel, hpos, hitem]
    · intro hge
      unfold handlePointerMove
      simp [hact, hsp, hdr, hge]
  · intro hdr
    unfold handlePointerMove
    cases hsp : m.state.startPosition with
    | none => cases hraf : m.rafId <;> simp [hact, hsp, hdr, hraf]
    | some sp => cases hraf : m.rafId <;> simp [hact, hsp, hdr, hraf]

/-- Witness for `drag_threshold_transition`: the concrete armed session
promoted by a 20-pixel move against the default threshold 10. -/
theorem drag_threshold_transition_witness :
    ∃ el pos item,
      mArmed.state.sourceElement = some el ∧ mArmed.state.sourcePosition = some pos ∧
      mArmed.state.sourceItem = some item ∧
      handlePointerMove wCfg mArmed (some 1) 20 0 =
        ({ mArmed with
            state := { mArmed.state with isDragging := true }
            draggingAttr := setAttr mArmed.draggingAttr el },
          [CallbackCall.onDragStart el pos item]) :=
  ((drag_threshold_transition wCfg mArmed (some 1) 20 0 (by decide) (by decide)).1
    ⟨0, 0⟩ (by decide) (by decide)).1 (by decide)

/-- C6: on pointer-down the handler suppresses the default behaviour and
populates the session exactly when every pick-up check passes — no
session already exists, a draggable-kind ancestor is found, the position
resolver returns a value, the element carries no data-empty marker, the
permission callback (when supplied) allows the drag, and the item-data
resolver is supplied and returns a value.  On any failed check the
handler aborts silently: the state is unchanged, the default is not
suppressed, and no lifecycle callback is invoked (the embedding is a
total function, so no exception path exists). -/
theorem pickup_silent_abort {TItem TPos : Type} (config : DragDropConfig) (dom : Dom)
    (callbacks : DragDropCallbacks TItem TPos) (m : Manager TItem TPos)
    (pointerId : Option Int) (target : Option Nat) (x y : Int) :
    (step config dom callbacks m (Event.pointerDown pointerId target x y)).2 = [] ∧
    ((handlePointerDown config dom callbacks m pointerId target x y).2 = false →
      (handlePointerDown config dom callbacks m pointerId target x y).1 = m) ∧
    ((handlePointerDown config dom callbacks m pointerId target x y).2 = true ↔
      (m.state.startPosition = none ∧
        ∃ el kind pos item,
          findElementByKinds dom target (draggableKinds config) = some (el, kind) ∧
          callbacks.getItemPosition el kind = some pos ∧
          dom.datasetEmpty el = false ∧
          (∀ f, callbacks.canDrag = some f → f el pos = true) ∧
          (∃ f, callbacks.getItemData = some f ∧ f el pos = some item))) ∧
    ((handlePointerDown config dom callbacks m pointerId target x y).2 = true →
      ∃ el kind pos item,
        findElementByKinds dom target (draggableKinds config) = some (el, kind) ∧
        callbacks.getItemPosition el kind = some pos ∧
        (∃ f, callbacks.getItemData = some f ∧ f el pos = some item) ∧
        (handlePointerDown config dom callbacks m pointerId target x y).1 =
          { m with
            state :=
              { m.state with
                startPosition := some ⟨x, y⟩
                sourceElement := some el
                sourcePosition := some pos
                sourceItem := some item
                activePointerId := pointerId } }) := by
  refine ⟨rfl, ?_⟩
  unfold handlePointerDown
  split
  next hsome =>
    refine ⟨fun _ => rfl, Iff.intro (fun hc => by cases hc) ?_, fun hc => by cases hc⟩
    rintro ⟨hnone, -⟩
    rw [hnone] at hsome
    cases hsome
  next hsome =>
    have hnone : m.state.startPosition = none := by
      cases hb : m.state.startPosition with
      | none => rfl
      | some p => rw [hb] at hsome; exact absurd rfl hsome
    split
    next hfind =>
      refine ⟨fun _ => rfl, Iff.intro (fun hc => by cases hc) ?_, fun hc => by cases hc⟩
      rintro ⟨-, el, kind, pos, item, hf, -⟩
      rw [hfind] at hf
      cases hf
    next el0 kind0 hfind =>
      split
      next hpos0 =>
        refine ⟨fun _ => rfl, Iff.intro (fun hc => by cases hc) ?_, fun hc => by cases hc⟩
        rintro ⟨-, el, kind, pos, item, hf, hp, -⟩
        rw [hfind] at hf
        cases hf
        rw [hpos0] at hp
        cases hp
      next pos0 hpos0 =>
        split
        next hempty =>
          refine ⟨fun _ => rfl, Iff.intro (fun hc => by cases hc) ?_, fun hc => by cases hc⟩
          rintro ⟨-, el, kind, pos, item, hf, hp, hemp, -⟩
          rw [hfind] at hf
          cases hf
          rw [hempty] at hemp
          cases hemp
        next hempty =>
          have hempty' : dom.datasetEmpty el0 = false := by
            cases hb : dom.datasetEmpty el0
            · rfl
            · exact absurd hb hempty
          split
          next hcan =>
            refine ⟨fun _ => rfl, Iff.intro (fun hc => by cases hc) ?_, fun hc => by cases hc⟩
            rintro ⟨-, el, kind, pos, item, hf, hp, -, hall, -⟩
            rw [hfind] at hf
            cases hf
            rw [hpos0] at hp
            cases hp
            cases hcd : callbacks.canDrag with
            | none => rw [hcd] at hcan; cases hcan
            | some f =>
              rw [hcd] at hcan
              dsimp only at hcan
              rw [hall f hcd] at hcan
              cases hcan
          next hcan =>
            split
            next hdata =>
              refine ⟨fun _ => rfl, Iff.intro (fun hc => by cases hc) ?_, fun hc => by cases hc⟩
              rintro ⟨-, el, kind, pos, item, hf, hp, -, -, f, hgd, hfd⟩
              rw [hfind] at hf
              cases hf
              rw [hpos0] at hp
              cases hp
              rw [hgd] at hdata
              dsimp only at hdata
              rw [hfd] at hdata
              cases hdata
            next item0 hdata =>
              have hdata' : ∃ f, callbacks.getItemData = some f ∧ f el0 pos0 = some item0 := by
                cases hgd : callbacks.getItemData with
                | none => rw [hgd] at hdata; cases hdata
                | some f =>
                  rw [hgd] at hdata
                  exact ⟨f, rfl, hdata⟩
              have hcan' : ∀ f, callbacks.canDrag = some f → f el0 pos0 = true := by
                intro f hcd
                rw [hcd] at hcan
                dsimp only at hcan
                cases hb : f el0 pos0
                · rw [hb] at hcan
                  exact absurd rfl hcan
                · rfl
              refine ⟨(fun hc => by cases hc),
                Iff.intro (fun _ => ?_) (fun _ => rfl), fun _ => ?_⟩
              · exact ⟨hnone, el0, kind0, pos0, item0, hfind, hpos0, hempty', hcan', hdata'⟩
              · exact ⟨el0, kind0, pos0, item0, hfind, hpos0, hdata', rfl⟩

/-- Witness for `pickup_silent_abort`: the concrete pick-up on element 1
passes all checks and populates the session. -/
theorem pickup_silent_abort_witness :
    (handlePointerDown wCfg wDom wCbs initialManager (some 1) (some 1) 0 0).2 = true ∧
      ∃ el kind pos item,
        findElementByKinds wDom (some 1) (draggableKinds wCfg) = some (el, kind) ∧
        wCbs.getItemPosition el kind = some pos ∧
        (∃ f, wCbs.getItemData = some f ∧ f el pos = some item) ∧
        (handlePointerDown wCfg wDom wCbs initialManager (some 1) (some 1) 0 0).1 =
          ({ (initialManager : Manager Nat Nat) with
            state :=
              { (initialManager : Manager Nat Nat).state with
                startPosition := some ⟨0, 0⟩
                sourceElement := some el
                sourcePosition := some pos
                sourceItem := some item
                activePointerId := some 1 } } : Manager Nat Nat) :=
  ⟨by decide,
    (pickup_silent_abort wCfg wDom wCbs initialManager (some 1) (some 1) 0 0).2.2.2
      (by decide)⟩

/-- C7: on pointer-up from the active pointer while dragging, the drop
callback fires with (source position, resolved target position, source
item) exactly when a droppable-kind ancestor is found at the release
coordinates and the position resolver, called with that droppable element
and its matched kind, returns a value; when it fires it immediately
precedes the drag-end callback of the same cleanup pass, and when the
droppable resolution fails only drag-end fires from cleanup.  In every
case the session resets. -/
theorem drop_resolution {TItem TPos : Type} (config : DragDropConfig) (dom : Dom)
    (callbacks : DragDropCallbacks TItem TPos) (m : Manager TItem TPos)
    (pointerId : Option Int) (x y : Int) (elementAtPoint : Option Nat)
    (h : ManagerInv m) (hact : isActivePointer m pointerId = true)
    (hdr : m.state.isDragging = true) :
    ∃ sp si, m.state.sourcePosition = some sp ∧ m.state.sourceItem = some si ∧
      handlePointerUp config dom callbacks m pointerId x y elementAtPoint =
        (initialManager,
          match findElementByKinds dom elementAtPoint (droppableKinds config) with
          | some (droppableElement, droppableKind) =>
            match callbacks.getItemPosition droppableElement droppableKind with
            | some targetPosition =>
              [CallbackCall.onDrop sp targetPosition si, CallbackCall.onDragEnd]
            | none => [CallbackCall.onDragEnd]
          | none => [CallbackCall.onDragEnd]) := by
  have hcl := cleanup_eq h
  rw [hdr] at hcl
  simp only [if_true] at hcl
  obtain ⟨h1, h2, h3, h4, h5⟩ := h
  obtain ⟨he, hp, hi⟩ := h1 (h2 hdr)
  obtain ⟨sp, hsp⟩ := Option.isSome_iff_exists.mp hp
  obtain ⟨si, hsi⟩ := Option.isSome_iff_exists.mp hi
  obtain ⟨startPos, hstart⟩ := Option.isSome_iff_exists.mp (h2 hdr)
  refine ⟨sp, si, hsp, hsi, ?_⟩
  unfold handlePointerUp
  cases hfind : findElementByKinds dom elementAtPoint (droppableKinds config) with
  | none => simp [hact, hstart, hdr, hsp, hsi, hfind, hcl]
  | some droppableMatch =>
    obtain ⟨droppableElement, droppableKind⟩ := droppableMatch
    cases hgp : callbacks.getItemPosition droppableElement droppableKind with
    | none => simp [hact, hstart, hdr, hsp, hsi, hfind, hgp, hcl]
    | some targetPosition => simp [hact, hstart, hdr, hsp, hsi, hfind, hgp, hcl]

/-- Witness for `drop_resolution`: the concrete dragging session released
over element 2, whose position resolves, fires drop then end. -/
theorem drop_resolution_witness :
    ∃ sp si,
      mDragging.state.sourcePosition = some sp ∧ mDragging.state.sourceItem = some si ∧
      handlePointerUp wCfg wDom wCbs mDragging (some 1) 20 0 (some 2) =
        (initialManager,
          match findElementByKinds wDom (some 2) (droppableKinds wCfg) with
          | some (droppableElement, droppableKind) =>
            match wCbs.getItemPosition droppableElement droppableKind with
            | some targetPosition =>
              [CallbackCall.onDrop sp targetPosition si, CallbackCall.onDragEnd]
            | none => [CallbackCall.onDragEnd]
          | none => [CallbackCall.onDragEnd]) :=
  drop_resolution wCfg wDom wCbs mDragging (some 1) 20 0 (some 2)
    (by decide) (by decide) (by decide)

/-- C8: on pointer-up from the active pointer while armed but never
promoted to dragging, the click callback fires with (source element,
source position) exactly when the distance from the start to the release
coordinates is strictly below the click threshold; a release at distance
exactly equal to the threshold fires no click; in both cases the session
resets without a drag-end. -/
theorem click_strict_threshold {TItem TPos : Type} (config : DragDropConfig) (dom : Dom)
    (callbacks : DragDropCallbacks TItem TPos) (m : Manager TItem TPos)
    (pointerId : Option Int) (x y : Int) (elementAtPoint : Option Nat)
    (h : ManagerInv m) (hact : isActivePointer m pointerId = true)
    (startPos : PointerPosition) (hsp : m.state.startPosition = some startPos)
    (hdr : m.state.isDragging = false) :
    ∃ el pos, m.state.sourceElement = some el ∧ m.state.sourcePosition = some pos ∧
      handlePointerUp config dom callbacks m pointerId x y elementAtPoint =
        (initialManager,
          if distanceLt startPos ⟨x, y⟩ config.clickThreshold then
            [CallbackCall.onClick el pos]
          else []) ∧
      (getDistanceSq startPos ⟨x, y⟩ =
          (config.clickThreshold * config.clickThreshold : Int) →
        (handlePointerUp config dom callbacks m pointerId x y elementAtPoint).2 = []) := by
  have hcl := cleanup_eq h
  rw [hdr] at hcl
  simp only [Bool.false_eq_true, if_false] at hcl
  obtain ⟨h1, h2, h3, h4, h5⟩ := h
  obtain ⟨he, hp, hi⟩ := h1 (by rw [hsp]; rfl)
  obtain ⟨el, hel⟩ := Option.isSome_iff_exists.mp he
  obtain ⟨pos, hpos⟩ := Option.isSome_iff_exists.mp hp
  have hmain : handlePointerUp config dom callbacks m pointerId x y elementAtPoint =
      (initialManager,
        if distanceLt startPos ⟨x, y⟩ config.clickThreshold then
          [CallbackCall.onClick el pos]
        else []) := by
    unfold handlePointerUp
    cases hlt : distanceLt startPos ⟨x, y⟩ config.clickThreshold with
    | true => simp [hact, hsp, hdr, hel, hpos, hlt, hcl]
    | false => simp [hact, hsp, hdr, hlt, hcl]
  refine ⟨el, pos, hel, hpos, hmain, ?_⟩
  intro heq
  rw [hmain]
  have hlt : distanceLt startPos ⟨x, y⟩ config.clickThreshold = false := by
    simp [distanceLt, heq]
  rw [hlt]
  rfl

/-- Witness for `click_strict_threshold`: the concrete armed session
released at distance exactly 10, the click threshold, fires no click. -/
theorem click_strict_threshold_witness :
    ∃ el pos,
      mArmed.state.sourceElement = some el ∧ mArmed.state.sourcePosition = some pos ∧
      handlePointerUp wCfg wDom wCbs mArmed (some 1) 10 0 none =
        (initialManager,
          if distanceLt ⟨0, 0⟩ ⟨10, 0⟩ wCfg.clickThreshold then
            [CallbackCall.onClick el pos]
          else []) ∧
      (getDistanceSq ⟨0, 0⟩ ⟨10, 0⟩ =
          (wCfg.clickThreshold * wCfg.clickThreshold : Int) →
        (handlePointerUp wCfg wDom wCbs mArmed (some 1) 10 0 none).2 = []) :=
  click_strict_threshold wCfg wDom wCbs mArmed (some 1) 10 0 none
    (by decide) (by decide) ⟨0, 0⟩ (by decide) (by decide)

/-- State of a `DragPreviewController` instance: the owned preview-clone
reference (source field `previewElement`), the clones currently inserted
in the document, and a counter supplying fresh element identities for
`element.cloneNode(true)`.  The styling the source applies to the clone
(position, size, opacity, stacking, copied computed styles, class names)
has no bearing on the clone lifecycle and is outside the model. -/
structure DragPreviewController where
  previewElement : Option Nat
  domClones : List Nat
  nextCloneId : Nat
deriving DecidableEq, Repr

/-- A freshly constructed controller owns no preview. -/
def initPreviewController : DragPreviewController := ⟨none, [], 0⟩

/-- Source `stop`: remove the clone from the document if one exists (the
optional chain on `previewElement?.remove()`) and clear the reference; a
safe no-op when no clone exists. -/
def DragPreviewController.stop (s : DragPreviewController) : DragPreviewController :=
  { s with
    domClones :=
      match s.previewElement with
      | some el => removeAttr s.domClones el
      | none => s.domClones
    previewElement := none }

/-- Source `startFromElement`: first discard any existing preview via
`stop`, then deep-clone the source element (a fresh identity from the
counter), append the clone to the host container, and take ownership. -/
def DragPreviewController.startFromElement (s : DragPreviewController) :
    DragPreviewController :=
  { s.stop with
    domClones := s.stop.domClones ++ [s.nextCloneId]
    previewElement := some s.nextCloneId
    nextCloneId := s.nextCloneId + 1 }

/-- Source `destroy`: alias for `stop`. -/
def DragPreviewController.destroy (s : DragPreviewController) : DragPreviewController :=
  s.stop

/-- Ownership invariant of the preview helper: the clones in the document
are exactly the currently owned preview element. -/
abbrev PreviewInv (s : DragPreviewController) : Prop :=
  s.domClones = s.previewElement.toList

/-- Under the ownership invariant, `stop` leaves no clone in the
document. -/
theorem stop_clears {s : DragPreviewController} (h : PreviewInv s) :
    s.stop.domClones = [] := by
  have hlist : s.domClones = s.previewElement.toList := h
  show (match s.previewElement with
    | some el => removeAttr s.domClones el
    | none => s.domClones) = []
  cases hpe : s.previewElement with
  | none => rw [hpe] at hlist; simpa using hlist
  | some el =>
    rw [hpe] at hlist
    simp only [Option.toList] at hlist
    simp [hlist, removeAttr_singleton]

/-- C9: the preview helper maintains at most one active clone.  Under the
ownership invariant — which holds initially and is preserved by stop,
startFromElement and destroy — a startFromElement leaves exactly the new
clone in the document, two successive startFromElement calls leave
exactly one clone (the second call's clone, distinct from the first
call's), and stop and destroy called when no clone exists return the
state unchanged (the embedding is a total function, so nothing is
thrown). -/
theorem preview_single_clone (s : DragPreviewController) (h : PreviewInv s) :
    PreviewInv initPreviewController ∧
    PreviewInv s.stop ∧ PreviewInv s.startFromElement ∧ PreviewInv s.destroy ∧
    s.startFromElement.domClones = [s.nextCloneId] ∧
    s.startFromElement.startFromElement.domClones = [s.nextCloneId + 1] ∧
    s.startFromElement.startFromElement.previewElement = some (s.nextCloneId + 1) ∧
    ¬(s.nextCloneId + 1 = s.nextCloneId) ∧
    (s.previewElement = none → s.stop = s ∧ s.destroy = s) := by
  have hstop : s.stop.domClones = [] := stop_clears h
  have hstart : PreviewInv s.startFromElement := by
    show s.stop.domClones ++ [s.nextCloneId] = (some s.nextCloneId).toList
    rw [hstop]
    rfl
  have hstartClones : s.startFromElement.domClones = [s.nextCloneId] := by
    show s.stop.domClones ++ [s.nextCloneId] = [s.nextCloneId]
    rw [hstop]
    rfl
  have hstop2 : s.startFromElement.stop.domClones = [] := stop_clears hstart
  refine ⟨rfl, ?_, hstart, ?_, hstartClones, ?_, rfl, Nat.succ_ne_self s.nextCloneId, ?_⟩
  · show s.stop.domClones = (none : Option Nat).toList
    rw [hstop]
    rfl
  · show s.stop.domClones = (none : Option Nat).toList
    rw [hstop]
    rfl
  · show s.startFromElement.stop.domClones ++ [s.startFromElement.nextCloneId] =
      [s.nextCloneId + 1]
    rw [hstop2]
    rfl
  · intro hpe
    have hs : s.stop = s := by
      show ({ s with
        domClones :=
          match s.previewElement with
          | some el => removeAttr s.domClones el
          | none => s.domClones
        previewElement := none } : DragPreviewController) = s
      rw [hpe]
      cases s with
      | mk pe dc nc =>
        cases hpe
        rfl
    exact ⟨hs, hs⟩

/-- Witness for `preview_single_clone` at the freshly constructed
controller. -/
theorem preview_single_clone_witness :
    PreviewInv initPreviewController ∧
      (PreviewInv initPreviewController ∧
        PreviewInv initPreviewController.stop ∧
        PreviewInv initPreviewController.startFromElement ∧
        PreviewInv initPreviewController.destroy ∧
        initPreviewController.startFromElement.domClones =
          [initPreviewController.nextCloneId] ∧
        initPreviewController.startFromElement.startFromElement.domClones =
          [initPreviewController.nextCloneId + 1] ∧
        initPreviewController.startFromElement.startFromElement.previewElement =
          some (initPreviewController.nextCloneId + 1) ∧
        ¬(initPreviewController.nextCloneId + 1 = initPreviewController.nextCloneId) ∧
        (initPreviewController.previewElement = none →
          initPreviewController.stop = initPreviewController ∧
            initPreviewController.destroy = initPreviewController)) :=
  ⟨by decide, preview_single_clone initPreviewController (by decide)⟩

/-- A dragging state with a hovered element and a pending animation
frame, reached by pick-up, promotion, a processed frame hovering element
2, and one further scheduling move. -/
def mHovering : Manager Nat Nat :=
  (run wCfg wDom wCbs initialManager
    [Event.pointerDown (some 1) (some 1) 0 0,
     Event.pointerMove (some 1) 20 0,
     Event.pointerMove (some 1) 25 0,
     Event.animationFrame (some 2),
     Event.pointerMove (some 1) 30 0]).1

/-- C10: during cleanup of a dragging session the data-dragging and
data-hovered attributes are removed and the pending animation frame is
cancelled before the drag-end callback is invoked, and the session
fields are reset only after the callback returns: `cleanupMid`, the
state current when onDragEnd is invoked, carries no marker attribute and
no pending frame, yet the public isDragging accessor still returns true
and the public getState accessor still returns the fully populated
session record; only the state after cleanup carries the empty
session. -/
theorem cleanup_observation_order {TItem TPos : Type} (m : Manager TItem TPos)
    (h : ManagerInv m) (hdr : m.state.isDragging = true) :
    (cleanup m).2 = [CallbackCall.onDragEnd] ∧
    (cleanupMid m).draggingAttr = [] ∧
    (cleanupMid m).hoveredAttr = [] ∧
    (cleanupMid m).rafId = false ∧
    Manager.isDragging (cleanupMid m) = true ∧
    Manager.getState (cleanupMid m) = m.state ∧
    (cleanupMid m).state.startPosition.isSome = true ∧
    (cleanupMid m).state.sourceElement.isSome = true ∧
    (cleanupMid m).state.sourcePosition.isSome = true ∧
    (cleanupMid m).state.sourceItem.isSome = true ∧
    (cleanup m).1.state = emptyDragState := by
  obtain ⟨hda, hha⟩ := cleanupMid_attrs h
  have hcl := cleanup_eq h
  obtain ⟨h1, h2, h3, h4, h5⟩ := h
  obtain ⟨he, hp, hi⟩ := h1 (h2 hdr)
  refine ⟨?_, hda, hha, rfl, hdr, rfl, h2 hdr, he, hp, hi, ?_⟩
  · rw [hcl, hdr]
    rfl
  · rw [hcl]
    rfl

/-- Witness for `cleanup_observation_order` at the concrete dragging
state with a hovered element and a pending frame. -/
theorem cleanup_observation_order_witness :
    ManagerInv mHovering ∧
      ((cleanup mHovering).2 = [CallbackCall.onDragEnd] ∧
        (cleanupMid mHovering).draggingAttr = [] ∧
        (cleanupMid mHovering).hoveredAttr = [] ∧
        (cleanupMid mHovering).rafId = false ∧
        Manager.isDragging (cleanupMid mHovering) = true ∧
        Manager.getState (cleanupMid mHovering) = mHovering.state ∧
        (cleanupMid mHovering).state.startPosition.isSome = true ∧
        (cleanupMid mHovering).state.sourceElement.isSome = true ∧
        (cleanupMid mHovering).state.sourcePosition.isSome = true ∧
        (cleanupMid mHovering).state.sourceItem.isSome = true ∧
        (cleanup mHovering).1.state = emptyDragState) :=
  ⟨by decide, cleanup_observation_order mHovering (by decide) (by decide)⟩

end DndM
